import Mathlib

/-!
Verification development for the gfs-stats-go repository.

The repository has two programs:

* `cmd/download/main.go` — the fetch orchestrator: downloads one GRIB file per
  forecast hour of the current model cycle into a fresh staging directory and,
  only if every hour succeeded, atomically replaces the published `./gfs_data`
  directory with the staging directory.
* `cmd/ingest/main.go` — the extraction and aggregation engine: globs the
  published directory, extracts point values per file through the external
  `wgrib2` decoder, derives user-facing quantities, and merges everything into
  a timestamp-deduplicated chronologically sorted series.

This file shallowly embeds the pure logic of both programs:

* timestamps are modelled as `ℤ` minutes (all timestamps the code produces are
  whole minutes, so Go's minute-resolution `"2006-01-02 15:04"` formatting of a
  `time.Time` is injective on them and is modelled by the identity);
* Go `float64` values are modelled as real numbers (`ℝ`);
* filenames are Lean `String`s, manipulated with faithful models of the Go
  standard library functions the source calls (`filepath.Base`,
  `strings.Split`, `strings.TrimPrefix`/`TrimSuffix`/`TrimSpace`,
  `strconv.Atoi`, acceptance of `strconv.ParseFloat`);
* the external decoder invocation (`wgrib2 | awk`) and the network are oracles
  supplied as explicit function arguments;
* the nondeterministic order in which the ingest worker goroutines append
  their results to the shared slice is an explicit `collected` list argument,
  constrained in theorems to be a permutation of the deterministically
  processed file list (`List.Perm`);
* Go's `sort.Slice` is modelled by a stable insertion sort keyed by the
  comparison the source passes.  (For the slice sizes that occur here, fewer
  than twelve elements, Go's `sort.Slice` is itself an insertion sort and
  hence stable in the collected order.)
-/

/-! ## Models of the Go standard library string functions used by the source -/

/-- Model of Go `strings.Split(s, sep)` for a single-character separator, on
character lists: splits at every occurrence of `sep`, keeping empty fields;
the empty input yields one empty field, as in Go. -/
def splitCh (sep : Char) : List Char → List (List Char)
  | [] => [[]]
  | c :: rest =>
    match splitCh sep rest with
    | [] => [[]]
    | g :: gs => if c = sep then [] :: g :: gs else (c :: g) :: gs

/-- Model of Go `path/filepath.Base` on character lists (Unix rules): empty
path gives `"."`; trailing slashes are removed; everything up to and including
the final slash is removed; an all-slash path gives `"/"`. -/
def goBaseL (cs : List Char) : List Char :=
  if cs = [] then ['.']
  else
    let r := cs.reverse.dropWhile (· = '/')
    if r = [] then ['/'] else (r.takeWhile (· ≠ '/')).reverse

/-- Model of Go `strings.TrimPrefix(s, p)` for the one-character prefixes the
source uses (`"t"`, `"f"`): drops the leading character when it matches,
otherwise returns the input unchanged. -/
def trimPreChar (c : Char) : List Char → List Char
  | [] => []
  | x :: xs => if x = c then xs else x :: xs

/-- Model of Go `strings.TrimSuffix(s, p)` for the one-character suffix the
source uses (`"z"`). -/
def trimSufChar (c : Char) (l : List Char) : List Char :=
  match l.getLast? with
  | none => l
  | some x => if x = c then l.dropLast else l

/-- Digit value of a character. -/
def digitVal (c : Char) : ℕ := c.toNat - '0'.toNat

/-- Value of a nonempty all-digit character list, base 10. -/
def digitsVal (l : List Char) : ℕ := l.foldl (fun acc c => 10 * acc + digitVal c) 0

/-- Model of Go `strconv.Atoi`: optional single sign, then one or more decimal
digits; anything else is a syntax error (`none`).  The 64-bit range error of
the Go function is not reachable from the inputs considered here, so the value
is returned exactly. -/
def goAtoi (l : List Char) : Option ℤ :=
  match l with
  | '+' :: ds => if ds ≠ [] ∧ ds.all Char.isDigit then some (digitsVal ds) else none
  | '-' :: ds => if ds ≠ [] ∧ ds.all Char.isDigit then some (-(digitsVal ds : ℤ)) else none
  | ds => if ds ≠ [] ∧ ds.all Char.isDigit then some (digitsVal ds) else none

/-- `resolution` constant of `cmd/download/main.go`. -/
def resolution : String := "0p25"

/-- The fixed forecast-hour list of `cmd/download/main.go`
(`forecastHours = ["000", ..., "024"]`). -/
def forecastHours : List String :=
  ["000", "001", "002", "003", "004", "005", "006", "007", "008", "009",
   "010", "011", "012", "013", "014", "015", "016", "017", "018", "019",
   "020", "021", "022", "023", "024"]

/-- The filename the download orchestrator builds in `downloadWithRetry`:
`fmt.Sprintf("gfs.t%sz.pgrb2.%s.f%s", cycle, resolution, hour)`. -/
def encodeFilename (cycle hour : String) : String :=
  "gfs.t" ++ cycle ++ "z.pgrb2." ++ resolution ++ ".f" ++ hour

/-- Model of `getForecastHour` in `cmd/ingest/main.go`: take the path base,
split on `"."`; fewer than five fields gives the sentinel `-1`; otherwise trim
a leading `f` from the fifth field and run `strconv.Atoi` on it, **discarding
the error** (`hour, _ := strconv.Atoi(hourStr)`), so an unparseable offset
yields `0`. -/
def getForecastHour (filename : String) : ℤ :=
  let parts := splitCh '.' (goBaseL filename.toList)
  if parts.length < 5 then -1
  else (goAtoi (trimPreChar 'f' (parts.getD 4 []))).getD 0

/-- One step of Go `time.Parse` number reading (`getnum` with `fixed=false`):
two digits if the first two characters are digits, else one digit, else fail. -/
def grab2 : List Char → Option (ℕ × List Char)
  | [] => none
  | [a] => if a.isDigit then some (digitVal a, []) else none
  | a :: b :: rest =>
    if a.isDigit then
      if b.isDigit then some (10 * digitVal a + digitVal b, a :: b :: rest |>.drop 2)
      else some (digitVal a, b :: rest)
    else none

/-- Model of the hour-minute tail of Go
`time.Parse("200601021504", date ++ cycleHour ++ "00")` in `processGFSFile`:
the eight-character date produced by `time.Now().Format("20060102")` always
parses, so only the `"1504"` tail is modelled.  Reads an hour (one or two
digits, at most 23) and a minute (one or two digits, at most 59) and requires
the input to be fully consumed; returns minutes after midnight. -/
def parseHM (cs : List Char) : Option ℕ :=
  match grab2 cs with
  | none => none
  | some (h, rest) =>
    if h ≤ 23 then
      match grab2 rest with
      | none => none
      | some (mi, rest2) =>
        if mi ≤ 59 ∧ rest2 = [] then some (h * 60 + mi) else none
    else none

/-- The timestamp computation of `processGFSFile` in `cmd/ingest/main.go`.
`today` is the wall-clock UTC midnight (in minutes) of the moment the engine
processes the file — the source obtains it from `time.Now().Format("20060102")`.
Splits the base name on `"."`, requires at least five fields, parses the cycle
hour from the second field (`TrimSuffix(TrimPrefix(parts[1], "t"), "z")`
followed by `time.Parse` of `date ++ cycleHour ++ "00"`), rejects a negative
`getForecastHour`, and returns cycle time plus forecast-hour offset, in
minutes. -/
def fileTimestamp (today : ℤ) (filename : String) : Option ℤ :=
  let parts := splitCh '.' (goBaseL filename.toList)
  if parts.length < 5 then none
  else
    let cyc := trimSufChar 'z' (trimPreChar 't' (parts.getD 1 []))
    match parseHM (cyc ++ ['0', '0']) with
    | none => none
    | some m =>
      let fh := getForecastHour filename
      if fh < 0 then none else some (today + (m : ℤ) + 60 * fh)

/-! ## Grid Decoder Adapter: acceptance of `strconv.ParseFloat` and the
four-line parse in `processGFSFile` (`cmd/ingest/main.go`) -/

/-- The 16 cardinal labels of `degreesToCardinal`, in source order. -/
def directionsList : List String :=
  ["N", "NNE", "NE", "ENE", "E", "ESE", "SE", "SSE",
   "S", "SSW", "SW", "WSW", "W", "WNW", "NW", "NNW"]

/-- First normalization loop of `degreesToCardinal`:
`for degrees < 0 { degrees += 360 }`. -/
noncomputable def addLoop (d : ℝ) : ℝ :=
  if d < 0 then addLoop (d + 360) else d
termination_by (⌈-d / 360⌉).toNat
decreasing_by
  have hpos : (0:ℝ) < -d / 360 := div_pos (by linarith) (by norm_num)
  have hc : 0 < ⌈-d / 360⌉ := Int.ceil_pos.mpr hpos
  have heq : ⌈-(d + 360) / 360⌉ = ⌈-d / 360⌉ - 1 := by
    rw [show -(d + 360) / 360 = -d / 360 - ((1:ℤ):ℝ) by push_cast; ring]
    exact Int.ceil_sub_int _ 1
  omega

/-- Second normalization loop of `degreesToCardinal`:
`for degrees >= 360 { degrees -= 360 }`. -/
noncomputable def subLoop (d : ℝ) : ℝ :=
  if 360 ≤ d then subLoop (d - 360) else d
termination_by (⌈d / 360⌉).toNat
decreasing_by
  have hpos : (0:ℝ) < d / 360 := div_pos (by linarith) (by norm_num)
  have hc : 0 < ⌈d / 360⌉ := Int.ceil_pos.mpr hpos
  have heq : ⌈(d - 360) / 360⌉ = ⌈d / 360⌉ - 1 := by
    rw [show (d - 360) / 360 = d / 360 - ((1:ℤ):ℝ) by push_cast; ring]
    exact Int.ceil_sub_int _ 1
  omega

/-- Both loops in sequence: the normalized angle in `[0, 360)`. -/
noncomputable def norm360 (d : ℝ) : ℝ := subLoop (addLoop d)

/-- Go's conversion `int(x)` on a `float64`: truncation toward zero. -/
noncomputable def goTrunc (x : ℝ) : ℤ :=
  if 0 ≤ x then ⌊x⌋ else ⌈x⌉

/-- Index computation of `degreesToCardinal`:
`int((degrees+11.25)/22.5) % 16` — Go `%` is the truncated remainder
(`Int.tmod`). -/
noncomputable def cardinalIndex (d : ℝ) : ℤ :=
  (goTrunc ((norm360 d + 11.25) / 22.5)).tmod 16

/-- `degreesToCardinal` of `cmd/ingest/main.go`: normalize into `[0, 360)` by
the two loops, then index the 16-entry label table.  The source indexes the
slice directly (panicking if out of range); the totality theorem shows the
index is always in range, so the `getD` default is never returned. -/
noncomputable def degreesToCardinal (degrees : ℝ) : String :=
  directionsList.getD (cardinalIndex degrees).toNat "N"

/-- Go `math.Atan2(y, x)` on the reals (the IEEE special cases for
infinities, NaN and signed zero do not arise on `ℝ`). -/
noncomputable def atan2 (y x : ℝ) : ℝ :=
  if 0 < x then Real.arctan (y / x)
  else if x < 0 then
    (if 0 ≤ y then Real.arctan (y / x) + Real.pi else Real.arctan (y / x) - Real.pi)
  else
    (if 0 < y then Real.pi / 2 else if y < 0 then -(Real.pi / 2) else 0)

/-- `ForecastData` of `cmd/ingest/main.go`: the raw per-file sample plus its
resolved timestamp (modelled in minutes; the `WindSpeed`/`WindDir` fields of
the Go struct are never written before the merge loop recomputes them and are
omitted). -/
structure ForecastData where
  Timestamp : ℤ
  Temp2m : ℝ
  UWind10m : ℝ
  VWind10m : ℝ
  WindGust : ℝ

/-- `ForecastOutput` of `cmd/ingest/main.go`.  The Go `Timestamp` field is the
minute-resolution formatted string; on the whole-minute timestamps produced
here that formatting is injective, so it is modelled by the minute count
itself. -/
structure ForecastOutput where
  Timestamp : ℤ
  TempC : ℝ
  WindKt : ℝ
  GustKt : ℝ
  Direction : String

/-- The per-sample body of the merge loop in `Ingest`: Kelvin to Celsius,
wind speed magnitude, meteorological wind direction via
`atan2(-u, -v)` in degrees normalized to be nonnegative, knots conversions,
and the cardinal label. -/
noncomputable def derive (f : ForecastData) : ForecastOutput :=
  let tempC := f.Temp2m - 273.15
  let windSpeed := Real.sqrt (f.UWind10m * f.UWind10m + f.VWind10m * f.VWind10m)
  let windDirRad := atan2 (-f.UWind10m) (-f.VWind10m)
  let windDir := windDirRad * 180 / Real.pi
  let windDir2 := if windDir < 0 then windDir + 360 else windDir
  let windSpeedKnots := windSpeed * 1.94384
  let windGustKnots := f.WindGust * 1.94384
  let cardinalDir := degreesToCardinal windDir2
  { Timestamp := f.Timestamp
    TempC := tempC
    WindKt := windSpeedKnots
    GustKt := windGustKnots
    Direction := cardinalDir }

/-! ## Extraction & Aggregation Engine pipeline (`Ingest`, `cmd/ingest/main.go`) -/

/-- One insertion step of a stable insertion sort with integer key `key`:
insert `x` before the first element whose key is strictly larger, hence after
all existing elements with an equal key. -/
def insKey {α : Type} (key : α → ℤ) (x : α) : List α → List α
  | [] => [x]
  | y :: l => if key x < key y then x :: y :: l else y :: insKey key x l

/-- Stable insertion sort with integer key: the model of Go `sort.Slice`
(which for the fewer-than-twelve-element slices occurring here is itself a
stable insertion sort). -/
def sortKey {α : Type} (key : α → ℤ) (l : List α) : List α :=
  l.foldl (fun acc x => insKey key x acc) []

/-- Model of the Go map assignment `timestampMap[timestampStr] = out` on an
association list with distinct keys: replace the entry for `k` if present,
otherwise append. -/
def upsert {β : Type} (k : ℤ) (v : β) : List (ℤ × β) → List (ℤ × β)
  | [] => [(k, v)]
  | (k', v') :: rest => if k = k' then (k, v) :: rest else (k', v') :: upsert k v rest

/-- Decoded values of one file at the queried coordinate, as the engine's
decode oracle reports them (the raw-string parsing of these four values is
modelled separately by `extractSample`). -/
structure GribVals where
  windGust : ℝ
  temp2m : ℝ
  uWind10m : ℝ
  vWind10m : ℝ

/-- `processGFSFile` of `cmd/ingest/main.go` (per-file phase): resolve the
timestamp from the filename and today's wall-clock date, then obtain the four
decoded values.  `vals` is the oracle for the external
`wgrib2 | awk | ParseFloat` pipeline: `none` models any of its failure modes
(decoder error, missing lines, unparseable value), which the caller logs and
skips. -/
def processGFSFile (today : ℤ) (vals : String → Option GribVals) (file : String) :
    Option ForecastData :=
  match fileTimestamp today file with
  | none => none
  | some ts =>
    match vals file with
    | none => none
    | some g => some ⟨ts, g.temp2m, g.uWind10m, g.vWind10m, g.windGust⟩

/-- The deterministic dispatch-order processing of `Ingest`: sort the globbed
files by forecast hour ascending (`sort.Slice` with `getForecastHour`), then
process each file, dropping failures.  The real program runs the per-file
work in four concurrent workers; the order in which results are appended to
the shared `forecasts` slice is an arbitrary permutation of this list, which
theorems quantify over. -/
def processedList (today : ℤ) (vals : String → Option GribVals) (files : List String) :
    List ForecastData :=
  (sortKey getForecastHour files).filterMap (processGFSFile today vals)

/-- The aggregation tail of `Ingest`, starting from the collected `forecasts`
slice: sort by timestamp (`sort.Slice` with `Timestamp.Before`), run the
merge loop writing `derive f` into the timestamp-keyed map (last write wins),
flatten the map, and sort the output by timestamp.  Flattening a Go map
iterates in unspecified order; since the keys are distinct and the final sort
is by the key, the result is independent of that order and the map's own
association order is used. -/
noncomputable def ingestOutput (collected : List ForecastData) : List ForecastOutput :=
  let sorted := sortKey ForecastData.Timestamp collected
  let m := sorted.foldl (fun acc f => upsert f.Timestamp (derive f) acc) []
  sortKey ForecastOutput.Timestamp (m.map Prod.snd)

/-- The whole of `Ingest` after its two fatal startup checks (`wgrib2`
missing and a glob error both call `log.Fatal`, which kills the process
rather than returning): every remaining path ends in `return output, nil`,
so the error component is always `nil` — modelled by `Except.ok`. -/
noncomputable def Ingest (today : ℤ) (vals : String → Option GribVals)
    (files : List String) (collected : List ForecastData) :
    Except String (List ForecastOutput) :=
  Except.ok (ingestOutput collected)

/-! ## Fetch Orchestrator (`cmd/download/main.go`) -/

/-- A directory of files: name to size in bytes.  Association list with
set-once-per-name discipline (names are distinct per forecast hour). -/
def FS : Type := List (String × ℕ)

/-- File size lookup (`os.Stat(...).Size()`; `none` models the stat error for
a missing file). -/
def fsGet (fs : FS) (n : String) : Option ℕ :=
  (List.find? (fun p => p.1 == n) fs).map (fun p => p.2)

/-- Write or overwrite a file (`os.Create` + body, or the target of
`os.Rename`). -/
def fsSet (fs : FS) (n : String) (sz : ℕ) : FS :=
  match fs with
  | [] => [(n, sz)]
  | (n', s') :: rest => if n = n' then (n, sz) :: rest else (n', s') :: fsSet rest n sz

/-- Remove a file (`os.Remove`). -/
def fsDel (fs : FS) (n : String) : FS :=
  List.filter (fun p => p.1 ≠ n) fs

/-- `maxRetries` constant of `cmd/download/main.go`. -/
def maxRetries : ℕ := 3

/-- The `1<<20` minimum-size threshold of `cmd/download/main.go`. -/
def sizeThreshold : ℕ := 1048576

/-- Outcome of one `downloadFile` call plus the subsequent rename, as decided
by the environment (network and filesystem):

* `createFail` — `os.Create` fails; the temp file is left as it was;
* `netFail` — the HTTP request errors after `os.Create` truncated the temp
  file to size 0;
* `badStatus` — a non-200 response; temp file truncated to size 0;
* `copyFail n` — `io.Copy` fails after writing `n` bytes;
* `ok size renameOk` — the body of `size` bytes is written; if the size check
  passes, `renameOk` tells whether the `os.Rename` into place succeeds. -/
inductive Att where
  | createFail : Att
  | netFail : Att
  | badStatus : ℕ → Att
  | copyFail : ℕ → Att
  | ok : ℕ → Bool → Att
  deriving DecidableEq, Repr

/-- Effect of `downloadFile` (`cmd/download/main.go`) on the staging
directory: returns `true` on error, and the updated directory (the temp file
is created and truncated before the request is issued, so every outcome
except `createFail` leaves a temp file behind). -/
def dlFile (a : Att) (st : FS) (tempName : String) : Bool × FS :=
  match a with
  | .createFail => (true, st)
  | .netFail => (true, fsSet st tempName 0)
  | .badStatus _ => (true, fsSet st tempName 0)
  | .copyFail n => (true, fsSet st tempName n)
  | .ok size _ => (false, fsSet st tempName size)

/-- Statistics of one `downloadWithRetry` call: how many `downloadFile`
fetch attempts were made and how many `time.Sleep(retryDelay)` inter-attempt
delays were taken. -/
structure Stats where
  fetches : ℕ
  sleeps : ℕ
  deriving DecidableEq, Repr

/-- The attempt loop of `downloadWithRetry`
(`for attempt := 1; attempt <= maxRetries; attempt++`), with the
post-loop cleanup (`os.Remove(tempPath)` and the aggregate error).  `rem` is
the number of attempts still allowed; the oracle is consulted per attempt
number. -/
def dwrLoop (oracle : ℕ → Att) (outputName tempName hour : String) :
    ℕ → ℕ → FS → Stats → Except String Unit × FS × Stats
  | 0, _, st, stats =>
    (.error (hour ++ "h failed after 3 attempts"), fsDel st tempName, stats)
  | rem + 1, attempt, st, stats =>
    let a := oracle attempt
    let stats := { stats with fetches := stats.fetches + 1 }
    match dlFile a st tempName with
    | (false, st') =>
      match fsGet st' tempName with
      | some size =>
        if sizeThreshold < size then
          match a with
          | .ok _ true => (.ok (), fsSet (fsDel st' tempName) outputName size, stats)
          | _ => (.error "failed to rename temp file", fsDel st' tempName, stats)
        else
          let stats := if attempt < maxRetries then { stats with sleeps := stats.sleeps + 1 } else stats
          dwrLoop oracle outputName tempName hour rem (attempt + 1) st' stats
      | none =>
        let stats := if attempt < maxRetries then { stats with sleeps := stats.sleeps + 1 } else stats
        dwrLoop oracle outputName tempName hour rem (attempt + 1) st' stats
    | (true, st') =>
      let stats := if attempt < maxRetries then { stats with sleeps := stats.sleeps + 1 } else stats
      dwrLoop oracle outputName tempName hour rem (attempt + 1) st' stats

/-- `downloadWithRetry` of `cmd/download/main.go` for one forecast hour:
build the filename, skip (reporting success, no fetch) when the file already
exists **in the staging directory** with more than `1<<20` bytes — the
directory `outputPath` points into is `tmpOutputDir`, the freshly created
staging directory, not the previously published `./gfs_data` — otherwise run
up to three attempts. -/
def downloadWithRetry (oracle : ℕ → Att) (cycle hour : String) (st : FS) :
    Except String Unit × FS × Stats :=
  let filename := encodeFilename cycle hour
  let tempName := filename ++ ".tmp"
  match fsGet st filename with
  | some sz =>
    if sizeThreshold < sz then (.ok (), st, ⟨0, 0⟩)
    else dwrLoop oracle filename tempName hour maxRetries 1 st ⟨0, 0⟩
  | none => dwrLoop oracle filename tempName hour maxRetries 1 st ⟨0, 0⟩

/-- Outcome of one `run()` of the orchestrator. -/
structure RunOut where
  res : Except String Unit
  published : FS
  stagingLeft : Option FS
  failed : ℕ
  fetches : ℕ

/-- The job/result phase of `run()`: all 25 forecast hours are processed (the
cancellation context is only cancelled after `run` returns, so no worker ever
observes it); each hour touches only its own two filenames in the shared
staging directory, so the writes of the concurrent workers commute and are
modelled by a sequential fold.  Returns the final staging directory, the
count of failed hours, and the total fetch count. -/
def runFold (cycle : String) (oracle : String → ℕ → Att) : FS × ℕ × ℕ :=
  forecastHours.foldl
    (fun acc hour =>
      match downloadWithRetry (oracle hour) cycle hour acc.1 with
      | (res, st', stats) =>
        (st', acc.2.1 + (if res.isOk then 0 else 1), acc.2.2 + stats.fetches))
    ([], 0, 0)

/-- `run()` of `cmd/download/main.go`: create a fresh (empty) staging
directory, run all download jobs, and then either abort — reporting the
failed-hour count, with the deferred cleanup removing the staging directory
and the published directory untouched — or atomically publish: remove the old
published directory and rename the staging directory into its place. -/
def runModel (cycle : String) (pub : FS) (oracle : String → ℕ → Att) : RunOut :=
  match runFold cycle oracle with
  | (staging, failed, fetches) =>
    if 0 < failed then
      { res := .error (Nat.repr failed ++ " download(s) failed")
        published := pub
        stagingLeft := none
        failed := failed
        fetches := fetches }
    else
      { res := .ok ()
        published := staging
        stagingLeft := none
        failed := failed
        fetches := fetches }

/-- The four cycle-hour strings `getCurrentCycle` of `cmd/download/main.go`
can return ("00", "06", "12", "18") — the supported cycle-hour range of the
filename codec. -/
def cycleHours : List String := ["00", "06", "12", "18"]

/-- Attempt outcomes `downloadWithRetry` treats as retryable: every failing
`downloadFile` result (including the `os.Create` failure) and a successful
download whose size does not exceed the threshold.  Only a successful,
sufficiently large download that then fails to rename escapes the retry
loop early. -/
def retryableAtt (a : Att) : Bool :=
  match a with
  | .ok s _ => decide (s ≤ sizeThreshold)
  | _ => true

/-! ## Theorems -/

theorem fsGet_fsSet_self (st : FS) (n : String) (sz : ℕ) :
    fsGet (fsSet st n sz) n = some sz := by
  induction st with
  | nil => simp [fsSet, fsGet, List.find?]
  | cons p rest ih =>
    obtain ⟨n', s'⟩ := p
    by_cases h : n = n'
    · subst h; simp [fsSet, fsGet, List.find?]
    · simpa [fsSet, fsGet, h, List.find?, Ne.symm h] using ih

theorem fsGet_fsDel_self (st : FS) (n : String) : fsGet (fsDel st n) n = none := by
  induction st with
  | nil => simp [fsDel, fsGet, List.find?]
  | cons p rest ih =>
    obtain ⟨n', s'⟩ := p
    by_cases h : n' = n
    · simp only [fsDel, fsGet, h, List.filter] at ih ⊢
      simp [ih]
    · simp only [fsDel, fsGet, List.filter] at ih ⊢
      simp [h, List.find?, ih]

theorem dwrLoop_step (oracle : ℕ → Att) (outName tempName hour : String)
    (rem attempt : ℕ) (st : FS) (stats : Stats)
    (h : retryableAtt (oracle attempt) = true) :
    dwrLoop oracle outName tempName hour (rem + 1) attempt st stats =
      dwrLoop oracle outName tempName hour rem (attempt + 1)
        (dlFile (oracle attempt) st tempName).2
        { fetches := stats.fetches + 1
          sleeps := stats.sleeps + if attempt < maxRetries then 1 else 0 } := by
  by_cases hc : attempt < maxRetries
  all_goals cases ha : oracle attempt with
  | ok s b =>
    have hs : s ≤ sizeThreshold := of_decide_eq_true (by simpa [retryableAtt, ha] using h)
    simp [dwrLoop, ha, dlFile, fsGet_fsSet_self, Nat.not_lt.mpr hs, hc]
  | _ => simp [dwrLoop, ha, dlFile, hc]

/-- **C8** (amended).  Counterexample below shows the original claim false:
an `os.Create` failure inside `downloadFile` surfaces as an ordinary
`download failed` error in `downloadWithRetry` and is retried like a network
error.  Amended: network errors, non-200 responses, undersized files, copy
errors **and file-create errors** are all retried up to the fixed bound of 3
attempts with one fixed `retryDelay` sleep between consecutive attempts; only
the rename of a verified download aborts the job immediately without further
retries; after the final failed attempt (or the failed rename) the partial
temp file is removed and the job reports an error. -/
theorem C8_retry_amended (oracle : ℕ → Att) (cycle hour : String) (st : FS)
    (hskip : fsGet st (encodeFilename cycle hour) = none) :
    ((∀ i, 1 ≤ i → i ≤ maxRetries → retryableAtt (oracle i) = true) →
      (downloadWithRetry oracle cycle hour st).1 =
          .error (hour ++ "h failed after 3 attempts") ∧
        (downloadWithRetry oracle cycle hour st).2.2.fetches = maxRetries ∧
        (downloadWithRetry oracle cycle hour st).2.2.sleeps = maxRetries - 1 ∧
        fsGet (downloadWithRetry oracle cycle hour st).2.1
            (encodeFilename cycle hour ++ ".tmp") = none) ∧
    (∀ s, oracle 1 = .ok s false → sizeThreshold < s →
      (downloadWithRetry oracle cycle hour st).1 = .error "failed to rename temp file" ∧
        (downloadWithRetry oracle cycle hour st).2.2.fetches = 1 ∧
        fsGet (downloadWithRetry oracle cycle hour st).2.1
            (encodeFilename cycle hour ++ ".tmp") = none) := by
  have e : downloadWithRetry oracle cycle hour st =
      dwrLoop oracle (encodeFilename cycle hour) (encodeFilename cycle hour ++ ".tmp")
        hour maxRetries 1 st ⟨0, 0⟩ := by
    simp [downloadWithRetry, hskip]
  constructor
  · intro hall
    rw [e, show maxRetries = 2 + 1 from rfl,
      dwrLoop_step oracle _ _ hour 2 1 st ⟨0, 0⟩ (hall 1 (by decide) (by decide)),
      show (2 : ℕ) = 1 + 1 from rfl,
      dwrLoop_step oracle _ _ hour 1 2 _ _ (hall 2 (by decide) (by decide)),
      show (1 : ℕ) = 0 + 1 from rfl,
      dwrLoop_step oracle _ _ hour 0 3 _ _ (hall 3 (by decide) (by decide))]
    refine ⟨rfl, by simp [dwrLoop, maxRetries], by simp [dwrLoop, maxRetries],
      by simp [dwrLoop, fsGet_fsDel_self]⟩
  · intro s h1 hs
    rw [e]
    have : ¬ s ≤ sizeThreshold := Nat.not_le.mpr hs
    simp [show maxRetries = 2 + 1 from rfl, dwrLoop, h1, dlFile, fsGet_fsSet_self,
      hs, fsGet_fsDel_self]

/-- **C8** counterexample to the original claim: with `os.Create` failing on
every attempt for hour `000`, `downloadWithRetry` makes all 3 attempts — the
claim that filesystem create errors "are not retried and make the job fail
immediately" (which would mean a single attempt) is false on the code. -/
theorem C8_retry_cex :
    (downloadWithRetry (fun _ => Att.createFail) "00" "000" []).2.2.fetches = 3 ∧
      (downloadWithRetry (fun _ => Att.createFail) "00" "000" []).2.2.fetches ≠ 1 ∧
      (downloadWithRetry (fun _ => Att.createFail) "00" "000" []).1 =
        .error "000h failed after 3 attempts" :=
  ⟨by decide, by decide, rfl⟩

/-- **C8** witness: the amended theorem applied at a concrete always-failing
oracle for hour `012`. -/
theorem C8_retry_witness :
    (downloadWithRetry (fun _ => Att.netFail) "00" "012" []).1 =
        .error ("012" ++ "h failed after 3 attempts") ∧
      (downloadWithRetry (fun _ => Att.netFail) "00" "012" []).2.2.fetches = maxRetries ∧
      (downloadWithRetry (fun _ => Att.netFail) "00" "012" []).2.2.sleeps = maxRetries - 1 ∧
      fsGet (downloadWithRetry (fun _ => Att.netFail) "00" "012" []).2.1
          (encodeFilename "00" "012" ++ ".tmp") = none :=
  (C8_retry_amended (fun _ => Att.netFail) "00" "012" [] (by decide)).1
    (fun i _ _ => by decide)

/-- **C2**: if any forecast-hour download fails after exhausting its retries
(`failed > 0`), `run()` returns the aggregate error, the previously published
directory is left exactly as it was (the workers only ever write into the
staging directory), and the deferred cleanup removes the staging directory. -/
theorem C2_fetch_atomic_on_failure (cycle : String) (pub : FS)
    (oracle : String → ℕ → Att) (h : 0 < (runModel cycle pub oracle).failed) :
    (runModel cycle pub oracle).res =
        .error (Nat.repr (runModel cycle pub oracle).failed ++ " download(s) failed") ∧
      (runModel cycle pub oracle).published = pub ∧
      (runModel cycle pub oracle).stagingLeft = none := by
  unfold runModel at h ⊢
  generalize runFold cycle oracle = r at h ⊢
  obtain ⟨staging, failed, fetches⟩ := r
  by_cases hf : 0 < failed
  · simp [hf]
  · simp [hf] at h

/-- **C2** witness: one artificially failing hour (`005`, a network error on
every attempt) among otherwise-successful downloads; the published directory
survives byte-for-byte and the staging directory is gone. -/
theorem C2_fetch_atomic_witness :
    (runModel "00" [("old", 5)]
          (fun h _ => if h = "005" then Att.netFail else Att.ok 2000000 true)).res =
        .error (Nat.repr (runModel "00" [("old", 5)]
            (fun h _ => if h = "005" then Att.netFail else Att.ok 2000000 true)).failed ++
          " download(s) failed") ∧
      (runModel "00" [("old", 5)]
          (fun h _ => if h = "005" then Att.netFail else Att.ok 2000000 true)).published =
        [("old", 5)] ∧
      (runModel "00" [("old", 5)]
          (fun h _ => if h = "005" then Att.netFail else Att.ok 2000000 true)).stagingLeft =
        none :=
  C2_fetch_atomic_on_failure "00" [("old", 5)]
    (fun h _ => if h = "005" then Att.netFail else Att.ok 2000000 true) (by decide)

/-- **C6** (code bug): the failing input is a published directory that
already holds a complete (3000000-byte, above the 1 MiB threshold) file for
forecast hour `000`, with every download succeeding.  The claim (and §4.1 of
the spec) says the worker skips that hour and reports success without
fetching, so a run would perform 24 fetches; the code checks `outputPath`
inside the freshly created `tmpOutputDir` staging directory instead of the
published directory, never finds the file, and fetches all 25 hours.  The
last conjunct shows the skip branch firing only for a file already in the
staging directory — the directory the code actually consults. -/
theorem C6_skip_check_reads_staging :
    fsGet [(encodeFilename "00" "000", 3000000)] (encodeFilename "00" "000") =
        some 3000000 ∧
      sizeThreshold < 3000000 ∧
      (runModel "00" [(encodeFilename "00" "000", 3000000)]
          (fun _ _ => Att.ok 2000000 true)).fetches = 25 ∧
      (downloadWithRetry (fun _ => Att.ok 2000000 true) "00" "000"
          [(encodeFilename "00" "000", 3000000)]).2.2.fetches = 0 := by
  decide

/-- **C4** counterexample to the original claim: the malformed filename
`gfs.t00z.pgrb2.0p25.fabc` has five dot-separated fields but a non-numeric
offset; `getForecastHour` discards the `strconv.Atoi` error and returns `0`,
not a negative sentinel — so "for every malformed filename, decoding returns
a negative sentinel value" is false on the code. -/
theorem C4_codec_cex :
    getForecastHour "gfs.t00z.pgrb2.0p25.fabc" = 0 ∧
      ¬ getForecastHour "gfs.t00z.pgrb2.0p25.fabc" < 0 := by
  decide

/-- **C4** (amended).  The round-trip holds on the supported ranges: for
every cycle hour `getCurrentCycle` can produce and every offset string in the
orchestrator's horizon list, decoding the encoded filename returns that
offset.  Decoding is total (a Lean function; no panic), but malformed names
split between two sentinels: fewer than five dot-separated fields yields
`-1`, while five or more fields with an offset that `strconv.Atoi` cannot
parse yields `0` because the source discards the `Atoi` error. -/
theorem C4_codec_amended :
    (∀ c ∈ cycleHours, ∀ i, i < forecastHours.length →
        getForecastHour (encodeFilename c (forecastHours.getD i "")) = (i : ℤ)) ∧
      (∀ s : String, (splitCh '.' (goBaseL s.toList)).length < 5 →
        getForecastHour s = -1) ∧
      (∀ s : String, ¬ (splitCh '.' (goBaseL s.toList)).length < 5 →
        goAtoi (trimPreChar 'f' ((splitCh '.' (goBaseL s.toList)).getD 4 [])) = none →
        getForecastHour s = 0) := by
  refine ⟨by decide, ?_, ?_⟩
  · intro s h
    simp only [getForecastHour]
    split
    · rfl
    · next hn => exact absurd h hn
  · intro s h hatoi
    simp only [getForecastHour]
    split
    · next hlt => exact absurd hlt h
    · rw [hatoi]
      rfl

/-- **C4** witness: the amended theorem applied at cycle `"00"`, offset index
3 (round-trip) and at the short malformed name `"abc"` (sentinel `-1`). -/
theorem C4_codec_witness :
    getForecastHour (encodeFilename "00" (forecastHours.getD 3 "")) = (3 : ℤ) ∧
      getForecastHour "abc" = -1 :=
  ⟨C4_codec_amended.1 "00" (by decide) 3 (by decide),
    C4_codec_amended.2.1 "abc" (by decide)⟩

/-- **C5** counterexample to the original claim: the same file
`gfs.t18z.pgrb2.0p25.f006` processed on two different wall-clock dates
resolves to two different timestamps — the resolved timestamp is **not** a
function of (cycle, offset) only, because `processGFSFile` takes the cycle
date from `time.Now()`, not from the file. -/
theorem C5_timestamp_cex :
    fileTimestamp 0 "gfs.t18z.pgrb2.0p25.f006" = some 1440 ∧
      fileTimestamp 1440 "gfs.t18z.pgrb2.0p25.f006" = some 2880 ∧
      fileTimestamp 0 "gfs.t18z.pgrb2.0p25.f006" ≠
        fileTimestamp 1440 "gfs.t18z.pgrb2.0p25.f006" := by
  decide

/-- **C5** (amended): the resolved timestamp equals the wall-clock date of
the moment of processing (as a midnight, `today`), plus the cycle hour parsed
from the filename, plus the forecast-hour offset.  Equivalently: shifting the
processing date shifts every resolved timestamp by exactly that amount, so
the timestamp is a function of (processing date, cycle hour, offset) — and in
particular it does depend on the wall clock, and does not use the file's
actual cycle date. -/
theorem C5_timestamp_amended (today delta : ℤ) (file : String) :
    fileTimestamp (today + delta) file =
      (fileTimestamp today file).map (fun t => t + delta) := by
  simp only [fileTimestamp]
  split
  · rfl
  · split
    · rfl
    · split
      · rfl
      · simp only [Option.map_some']
        congr 1
        ring

theorem addLoop_spec (d : ℝ) : 0 ≤ addLoop d ∧ ∃ k : ℤ, addLoop d = d + 360 * k := by
  induction d using addLoop.induct with
  | case1 d h ih =>
    rw [addLoop, if_pos h]
    obtain ⟨hge, k, hk⟩ := ih
    exact ⟨hge, k + 1, by rw [hk]; push_cast; ring⟩
  | case2 d h =>
    rw [addLoop, if_neg h]
    exact ⟨le_of_not_lt h, 0, by simp⟩

theorem subLoop_spec (d : ℝ) :
    subLoop d < 360 ∧ (0 ≤ d → 0 ≤ subLoop d) ∧ ∃ k : ℤ, subLoop d = d + 360 * k := by
  induction d using subLoop.induct with
  | case1 d h ih =>
    rw [subLoop, if_pos h]
    obtain ⟨hlt, hnn, k, hk⟩ := ih
    refine ⟨hlt, fun _ => hnn (by linarith), k - 1, by rw [hk]; push_cast; ring⟩
  | case2 d h =>
    rw [subLoop, if_neg h]
    exact ⟨not_le.mp h, fun hd => hd, 0, by simp⟩

theorem norm360_spec (d : ℝ) :
    0 ≤ norm360 d ∧ norm360 d < 360 ∧ ∃ k : ℤ, norm360 d = d + 360 * k := by
  obtain ⟨ha, k1, hk1⟩ := addLoop_spec d
  obtain ⟨hlt, hnn, k2, hk2⟩ := subLoop_spec (addLoop d)
  exact ⟨hnn ha, hlt, k1 + k2, by rw [norm360, hk2, hk1]; push_cast; ring⟩

theorem norm360_add_360 (d : ℝ) : norm360 (d + 360) = norm360 d := by
  obtain ⟨h1a, h1b, k1, hk1⟩ := norm360_spec (d + 360)
  obtain ⟨h2a, h2b, k2, hk2⟩ := norm360_spec d
  have hdiff : norm360 (d + 360) - norm360 d = 360 * ((k1 : ℝ) - k2 + 1) := by
    rw [hk1, hk2]
    ring
  have hb1 : (-360 : ℝ) < 360 * ((k1 : ℝ) - k2 + 1) := by
    rw [← hdiff]
    linarith
  have hb2 : 360 * ((k1 : ℝ) - k2 + 1) < 360 := by
    rw [← hdiff]
    linarith
  have h1' : (-1 : ℤ) < k1 - k2 + 1 := by
    have : ((-1 : ℤ) : ℝ) < ((k1 - k2 + 1 : ℤ) : ℝ) := by push_cast; linarith
    exact_mod_cast this
  have h2' : k1 - k2 + 1 < 1 := by
    have : ((k1 - k2 + 1 : ℤ) : ℝ) < ((1 : ℤ) : ℝ) := by push_cast; linarith
    exact_mod_cast this
  have hz : k1 - k2 + 1 = 0 := by omega
  have hzero : norm360 (d + 360) - norm360 d = 0 := by
    rw [hdiff, show ((k1 : ℝ) - k2 + 1) = ((k1 - k2 + 1 : ℤ) : ℝ) by push_cast; ring, hz]
    simp
  linarith

theorem cardinalIndex_bounds (d : ℝ) : 0 ≤ cardinalIndex d ∧ cardinalIndex d < 16 := by
  obtain ⟨h0, h360, -⟩ := norm360_spec d
  have hx0 : (0 : ℝ) ≤ (norm360 d + 11.25) / 22.5 := by
    apply div_nonneg (by linarith) (by norm_num)
  have hfl0 : 0 ≤ ⌊(norm360 d + 11.25) / 22.5⌋ := Int.floor_nonneg.mpr hx0
  constructor
  · simp only [cardinalIndex, goTrunc, if_pos hx0]
    exact Int.tmod_nonneg 16 hfl0
  · simp only [cardinalIndex]
    exact Int.tmod_lt_of_pos _ (by norm_num)

/-- **C9**: the degrees-to-cardinal mapping is total on the reals — the two
normalization loops terminate (they are well-founded definitions), the
computed index is always inside the 16-entry table, and the result is one of
the 16 labels — and it is cyclic with period 360. -/
theorem C9_direction_total_cyclic :
    (∀ d : ℝ, 0 ≤ cardinalIndex d ∧ cardinalIndex d < 16 ∧
        degreesToCardinal d ∈ directionsList) ∧
      ∀ d : ℝ, degreesToCardinal (d + 360) = degreesToCardinal d := by
  constructor
  · intro d
    obtain ⟨h1, h2⟩ := cardinalIndex_bounds d
    refine ⟨h1, h2, ?_⟩
    have hlen : (cardinalIndex d).toNat < directionsList.length := by
      simp only [directionsList, List.length]
      omega
    rw [degreesToCardinal, List.getD_eq_getElem _ _ hlen]
    exact List.getElem_mem hlen
  · intro d
    rw [degreesToCardinal, degreesToCardinal, cardinalIndex, cardinalIndex,
      norm360_add_360]

theorem insKey_perm {α : Type} (key : α → ℤ) (x : α) (l : List α) :
    (insKey key x l).Perm (x :: l) := by
  induction l with
  | nil => exact List.Perm.refl _
  | cons y t ih =>
    rw [insKey]
    split
    · exact List.Perm.refl _
    · exact (ih.cons y).trans (List.Perm.swap x y t)

theorem sortKey_fold_perm {α : Type} (key : α → ℤ) :
    ∀ (l acc : List α), (List.foldl (fun a x => insKey key x a) acc l).Perm (acc ++ l) := by
  intro l
  induction l with
  | nil => intro acc; simp
  | cons x t ih =>
    intro acc
    simp only [List.foldl_cons]
    refine (ih (insKey key x acc)).trans ?_
    refine (((insKey_perm key x acc).append_right t).trans ?_)
    exact List.perm_middle.symm

theorem sortKey_perm {α : Type} (key : α → ℤ) (l : List α) : (sortKey key l).Perm l := by
  simpa [sortKey] using sortKey_fold_perm key l []

theorem insKey_sorted {α : Type} (key : α → ℤ) (x : α) (l : List α)
    (h : l.Pairwise (fun a b => key a ≤ key b)) :
    (insKey key x l).Pairwise (fun a b => key a ≤ key b) := by
  induction l with
  | nil => simp [insKey]
  | cons y t ih =>
    obtain ⟨hy, ht⟩ := List.pairwise_cons.mp h
    rw [insKey]
    split
    · next hlt =>
      refine List.pairwise_cons.mpr ⟨?_, h⟩
      intro z hz
      rcases List.mem_cons.mp hz with rfl | hz'
      · exact le_of_lt hlt
      · exact (le_of_lt hlt).trans (hy z hz')
    · next hge =>
      refine List.pairwise_cons.mpr ⟨?_, ih ht⟩
      intro z hz
      rcases List.mem_cons.mp ((insKey_perm key x t).mem_iff.mp hz) with rfl | hz'
      · exact le_of_not_lt hge
      · exact hy z hz'

theorem sortKey_fold_sorted {α : Type} (key : α → ℤ) :
    ∀ (l acc : List α), acc.Pairwise (fun a b => key a ≤ key b) →
      (List.foldl (fun a x => insKey key x a) acc l).Pairwise (fun a b => key a ≤ key b) := by
  intro l
  induction l with
  | nil => intro acc h; exact h
  | cons x t ih =>
    intro acc h
    simp only [List.foldl_cons]
    exact ih _ (insKey_sorted key x acc h)

theorem sortKey_sorted {α : Type} (key : α → ℤ) (l : List α) :
    (sortKey key l).Pairwise (fun a b => key a ≤ key b) := by
  exact sortKey_fold_sorted key l [] (List.Pairwise.nil)

theorem upsert_keys_sub {β : Type} (k : ℤ) (v : β) (m : List (ℤ × β)) (k' : ℤ)
    (h : k' ∈ (upsert k v m).map Prod.fst) : k' = k ∨ k' ∈ m.map Prod.fst := by
  induction m with
  | nil =>
    simp [upsert] at h
    exact Or.inl h
  | cons p rest ih =>
    obtain ⟨kp, vp⟩ := p
    by_cases hk : k = kp
    · subst hk
      simp only [upsert, if_pos rfl, List.map_cons] at h
      rcases List.mem_cons.mp h with rfl | h2
      · exact Or.inl rfl
      · exact Or.inr (by simp [h2])
    · simp only [upsert, if_neg hk, List.map_cons] at h
      rcases List.mem_cons.mp h with rfl | h2
      · exact Or.inr (by simp)
      · rcases ih h2 with h3 | h4
        · exact Or.inl h3
        · exact Or.inr (by simp [h4])

theorem upsert_keys_nodup {β : Type} (k : ℤ) (v : β) (m : List (ℤ × β))
    (h : (m.map Prod.fst).Nodup) : ((upsert k v m).map Prod.fst).Nodup := by
  induction m with
  | nil => simp [upsert]
  | cons p rest ih =>
    obtain ⟨kp, vp⟩ := p
    rw [List.map_cons] at h
    obtain ⟨hkp, hrest⟩ := List.nodup_cons.mp h
    by_cases hk : k = kp
    · subst hk
      simp only [upsert, if_pos rfl, List.map_cons]
      exact List.nodup_cons.mpr ⟨hkp, hrest⟩
    · simp only [upsert, if_neg hk, List.map_cons]
      refine List.nodup_cons.mpr ⟨?_, ih hrest⟩
      intro hmem
      rcases upsert_keys_sub k v rest kp hmem with h1 | h2
      · exact hk h1.symm
      · exact hkp h2

theorem upsert_forall {β : Type} (P : ℤ × β → Prop) (k : ℤ) (v : β) (m : List (ℤ × β))
    (hm : ∀ p ∈ m, P p) (hkv : P (k, v)) : ∀ p ∈ upsert k v m, P p := by
  induction m with
  | nil =>
    intro p hp
    simp [upsert] at hp
    exact hp ▸ hkv
  | cons q rest ih =>
    obtain ⟨kq, vq⟩ := q
    intro p hp
    by_cases hk : k = kq
    · subst hk
      simp only [upsert, if_pos rfl] at hp
      rcases List.mem_cons.mp hp with rfl | h2
      · exact hkv
      · exact hm p (List.mem_cons_of_mem _ h2)
    · simp only [upsert, if_neg hk] at hp
      rcases List.mem_cons.mp hp with rfl | h2
      · exact hm _ (List.mem_cons_self _ _)
      · exact ih (fun q hq => hm q (List.mem_cons_of_mem _ hq)) p h2

theorem mergeFold_nodup (l : List ForecastData) (acc : List (ℤ × ForecastOutput))
    (hacc : (acc.map Prod.fst).Nodup) :
    ((l.foldl (fun a f => upsert f.Timestamp (derive f) a) acc).map Prod.fst).Nodup := by
  induction l generalizing acc with
  | nil => exact hacc
  | cons f t ih => exact ih _ (upsert_keys_nodup _ _ _ hacc)

theorem mergeFold_ts (l : List ForecastData) (acc : List (ℤ × ForecastOutput))
    (hacc : ∀ p ∈ acc, (p.2).Timestamp = p.1) :
    ∀ p ∈ l.foldl (fun a f => upsert f.Timestamp (derive f) a) acc,
      (p.2).Timestamp = p.1 := by
  induction l generalizing acc with
  | nil => exact hacc
  | cons f t ih => exact ih _ (upsert_forall _ _ _ _ hacc rfl)

/-- **C3**: for every coordinate (the decode oracle), every set of discovered
files, every processing date and every concurrent collection order, the
engine output is sorted strictly ascending by (minute-resolution) timestamp —
in particular no two output points share a timestamp. -/
theorem C3_output_strictly_ascending (today : ℤ) (vals : String → Option GribVals)
    (files : List String) (collected : List ForecastData)
    (h : collected.Perm (processedList today vals files)) :
    (ingestOutput collected).Pairwise (fun a b => a.Timestamp < b.Timestamp) := by
  clear h
  have hout : ingestOutput collected =
      sortKey ForecastOutput.Timestamp
        (((sortKey ForecastData.Timestamp collected).foldl
            (fun acc f => upsert f.Timestamp (derive f) acc) []).map Prod.snd) := rfl
  set fold := (sortKey ForecastData.Timestamp collected).foldl
      (fun acc f => upsert f.Timestamp (derive f) acc) [] with hfold
  have hnodup : (fold.map Prod.fst).Nodup := mergeFold_nodup _ [] (by simp)
  have hts : ∀ p ∈ fold, (p.2).Timestamp = p.1 := mergeFold_ts _ [] (by simp)
  have hsorted := sortKey_sorted ForecastOutput.Timestamp (fold.map Prod.snd)
  have hperm := sortKey_perm ForecastOutput.Timestamp (fold.map Prod.snd)
  have hmapeq : (fold.map Prod.snd).map ForecastOutput.Timestamp = fold.map Prod.fst := by
    rw [List.map_map]
    exact List.map_congr_left (fun p hp => hts p hp)
  have hnodup2 :
      ((sortKey ForecastOutput.Timestamp (fold.map Prod.snd)).map
        ForecastOutput.Timestamp).Nodup := by
    refine (hperm.map ForecastOutput.Timestamp).nodup_iff.mpr ?_
    rw [hmapeq]
    exact hnodup
  have hne : (sortKey ForecastOutput.Timestamp (fold.map Prod.snd)).Pairwise
      (fun a b => a.Timestamp ≠ b.Timestamp) := List.pairwise_map.mp hnodup2
  rw [hout]
  exact (hsorted.and hne).imp (fun hab => lt_of_le_of_ne hab.1 hab.2)

/-- **C3** witness: a concrete one-file engine run with the identity
collection order. -/
theorem C3_output_strictly_ascending_witness :
    (ingestOutput (processedList 0 (fun _ => some ⟨1, 2, 3, 4⟩)
        ["gfs.t00z.pgrb2.0p25.f000"])).Pairwise
      (fun a b => a.Timestamp < b.Timestamp) :=
  C3_output_strictly_ascending 0 (fun _ => some ⟨1, 2, 3, 4⟩)
    ["gfs.t00z.pgrb2.0p25.f000"] _ (List.Perm.refl _)

/-- **C1** (amended).  With two files of distinct forecast-hour offsets
resolving to the same timestamp, the output contains exactly one
ForecastPoint for that timestamp, and it is derived from whichever of the two
samples was appended **last** to the shared result slice; when the concurrent
collection order coincides with the dispatch order — the files sorted by
forecast hour ascending — that is the file with the larger forecast-hour
offset, as this theorem states for the identity collection order.  The
counterexample below shows that for other (equally possible) collection
orders the smaller-offset file wins, refuting the original claim, which
quantified over every run. -/
theorem C1_merge_last_write_amended (today : ℤ) (vals : String → Option GribVals)
    (f1 f2 : String) (d1 d2 : ForecastData)
    (hp1 : processGFSFile today vals f1 = some d1)
    (hp2 : processGFSFile today vals f2 = some d2)
    (hfh : getForecastHour f1 < getForecastHour f2)
    (hts : d1.Timestamp = d2.Timestamp) :
    ingestOutput (processedList today vals [f1, f2]) = [derive d2] := by
  have hsortf : sortKey getForecastHour [f1, f2] = [f1, f2] := by
    simp [sortKey, insKey, not_lt.mpr (le_of_lt hfh)]
  have hproc : processedList today vals [f1, f2] = [d1, d2] := by
    simp [processedList, hsortf, hp1, hp2]
  rw [hproc]
  have hsort2 : sortKey ForecastData.Timestamp [d1, d2] = [d1, d2] := by
    simp [sortKey, insKey, not_lt.mpr (le_of_eq hts)]
  have hout : ingestOutput [d1, d2] =
      sortKey ForecastOutput.Timestamp
        (((sortKey ForecastData.Timestamp [d1, d2]).foldl
            (fun acc f => upsert f.Timestamp (derive f) acc) []).map Prod.snd) := rfl
  rw [hout, hsort2]
  simp [upsert, hts.symm, sortKey, insKey]

/-- **C1** counterexample to the original claim: two files with distinct
forecast-hour offsets (`gfs.t06z...f000`, offset 0, and `gfs.t00z...f006`,
offset 6) resolve to the identical timestamp (minute 360 of the processing
day).  All hypotheses of the claim hold, and the collection order
`[d2, d1]` — a legitimate completion order of the two concurrent workers,
`List.Perm` to the processed list — makes the engine output the point derived
from the *smaller*-offset file, which differs from the larger-offset
derivation (the temperatures differ).  So "its values are those derived from
the file with the larger forecast-hour offset" is false on the code. -/
theorem C1_merge_last_write_cex :
    getForecastHour "gfs.t06z.pgrb2.0p25.f000" < getForecastHour "gfs.t00z.pgrb2.0p25.f006" ∧
      processGFSFile 0
          (fun n => if n = "gfs.t06z.pgrb2.0p25.f000" then some ⟨0, 300, 0, -1⟩
            else some ⟨0, 301, 0, -1⟩) "gfs.t06z.pgrb2.0p25.f000" =
        some ⟨360, 300, 0, -1, 0⟩ ∧
      processGFSFile 0
          (fun n => if n = "gfs.t06z.pgrb2.0p25.f000" then some ⟨0, 300, 0, -1⟩
            else some ⟨0, 301, 0, -1⟩) "gfs.t00z.pgrb2.0p25.f006" =
        some ⟨360, 301, 0, -1, 0⟩ ∧
      (ForecastData.mk 360 300 0 (-1) 0).Timestamp =
        (ForecastData.mk 360 301 0 (-1) 0).Timestamp ∧
      List.Perm [ForecastData.mk 360 301 0 (-1) 0, ForecastData.mk 360 300 0 (-1) 0]
        (processedList 0
          (fun n => if n = "gfs.t06z.pgrb2.0p25.f000" then some ⟨0, 300, 0, -1⟩
            else some ⟨0, 301, 0, -1⟩)
          ["gfs.t06z.pgrb2.0p25.f000", "gfs.t00z.pgrb2.0p25.f006"]) ∧
      ingestOutput [ForecastData.mk 360 301 0 (-1) 0, ForecastData.mk 360 300 0 (-1) 0] =
        [derive (ForecastData.mk 360 300 0 (-1) 0)] ∧
      derive (ForecastData.mk 360 300 0 (-1) 0) ≠ derive (ForecastData.mk 360 301 0 (-1) 0) := by
  refine ⟨by decide, rfl, rfl, rfl, ?_, rfl, ?_⟩
  · have hp : processedList 0
        (fun n => if n = "gfs.t06z.pgrb2.0p25.f000" then some ⟨0, 300, 0, -1⟩
          else some ⟨0, 301, 0, -1⟩)
        ["gfs.t06z.pgrb2.0p25.f000", "gfs.t00z.pgrb2.0p25.f006"] =
        [ForecastData.mk 360 300 0 (-1) 0, ForecastData.mk 360 301 0 (-1) 0] := rfl
    rw [hp]
    exact List.Perm.swap _ _ _
  · intro h
    have hc := congrArg ForecastOutput.TempC h
    simp [derive] at hc

/-- **C1** witness: the amended theorem applied to the same two colliding
concrete files with the identity (dispatch-order) collection: the
larger-offset file (`f006`) wins. -/
theorem C1_merge_last_write_witness :
    ingestOutput (processedList 0
        (fun n => if n = "gfs.t06z.pgrb2.0p25.f000" then some ⟨0, 300, 0, -1⟩
          else some ⟨0, 301, 0, -1⟩)
        ["gfs.t06z.pgrb2.0p25.f000", "gfs.t00z.pgrb2.0p25.f006"]) =
      [derive (ForecastData.mk 360 301 0 (-1) 0)] :=
  C1_merge_last_write_amended 0
    (fun n => if n = "gfs.t06z.pgrb2.0p25.f000" then some ⟨0, 300, 0, -1⟩
      else some ⟨0, 301, 0, -1⟩)
    "gfs.t06z.pgrb2.0p25.f000" "gfs.t00z.pgrb2.0p25.f006"
    ⟨360, 300, 0, -1, 0⟩ ⟨360, 301, 0, -1, 0⟩ rfl rfl (by decide) rfl

/-- **C10**: after the two fatal startup checks (which kill the process
rather than returning), `Ingest` always returns with a `nil` error — the
HTTP handler's internal-server-error branch is unreachable — and per-file
decode failures are dropped by the workers before aggregation, so they can
only shrink the output (at most one sample per discovered file), never
produce an error. -/
theorem C10_ingest_never_errors (today : ℤ) (vals : String → Option GribVals)
    (files : List String) (collected : List ForecastData)
    (h : collected.Perm (processedList today vals files)) :
    Ingest today vals files collected = Except.ok (ingestOutput collected) ∧
      (processedList today vals files).length ≤ files.length := by
  refine ⟨rfl, ?_⟩
  calc (processedList today vals files).length
      ≤ (sortKey getForecastHour files).length := List.length_filterMap_le _ _
    _ = files.length := (sortKey_perm _ _).length_eq

/-- **C10** witness: a concrete run (one decodable file, one file whose
decode fails) with the identity collection order. -/
theorem C10_ingest_never_errors_witness :
    Ingest 0 (fun n => if n = "gfs.t00z.pgrb2.0p25.f000" then some ⟨1, 2, 3, 4⟩ else none)
        ["gfs.t00z.pgrb2.0p25.f000", "gfs.t00z.pgrb2.0p25.f003"]
        (processedList 0
          (fun n => if n = "gfs.t00z.pgrb2.0p25.f000" then some ⟨1, 2, 3, 4⟩ else none)
          ["gfs.t00z.pgrb2.0p25.f000", "gfs.t00z.pgrb2.0p25.f003"]) =
      Except.ok (ingestOutput (processedList 0
          (fun n => if n = "gfs.t00z.pgrb2.0p25.f000" then some ⟨1, 2, 3, 4⟩ else none)
          ["gfs.t00z.pgrb2.0p25.f000", "gfs.t00z.pgrb2.0p25.f003"])) ∧
      (processedList 0
          (fun n => if n = "gfs.t00z.pgrb2.0p25.f000" then some ⟨1, 2, 3, 4⟩ else none)
          ["gfs.t00z.pgrb2.0p25.f000", "gfs.t00z.pgrb2.0p25.f003"]).length ≤
        (["gfs.t00z.pgrb2.0p25.f000", "gfs.t00z.pgrb2.0p25.f003"] : List String).length :=
  C10_ingest_never_errors 0
    (fun n => if n = "gfs.t00z.pgrb2.0p25.f000" then some ⟨1, 2, 3, 4⟩ else none)
    ["gfs.t00z.pgrb2.0p25.f000", "gfs.t00z.pgrb2.0p25.f003"] _ (List.Perm.refl _)
